import Mathlib

/-!
Verification of the loan-default dashboard core (risk scoring, filtering,
segment aggregation, action ranking, dataset validation).

The Python sources are shallowly embedded as follows:

* a pandas `DataFrame` is a `List` of row structures holding exactly the
  columns the embedded function reads;
* float columns are rationals (`ℚ`); columns in which missing values (NaN)
  matter for a claim are `Option ℚ` / `Option _`, with `none` playing the
  role of NaN (comparisons against NaN are false, NaN is skipped by `dropna`);
* categorical labels, compared and ordered by pandas as Python strings, are
  values of an arbitrary linearly ordered type `κ` where an order is needed,
  and `String` where only equality is needed;
* `Series.between`, `Series.isin`, boolean masks, `groupby(..., dropna=False)`
  (which emits groups sorted by key, missing key last), `sort_values` on
  several keys (a stable lexicographic sort in pandas) and `quantile`
  (linear interpolation) are spelled out below;
* pandas stable sorts are embedded with `List.insertionSort`, which is the
  stable sort of Mathlib; `sort_values` on a single key (`render_acao`) is
  not stability-guaranteed in pandas, and the embedding fixes the tie order
  deterministically, which no claim depends on;
* fallible code (`loader.py`) returns `Except LoadError _`.
-/

namespace LoanInsight

/-! ## Shared helpers -/

/-- Clipping of a value into `[lo, hi]`, the embedding of `Series.clip`
(and of `numpy.clip`): values below `lo` become `lo`, values above `hi`
become `hi`. -/
def clipQ (x lo hi : ℚ) : ℚ := max lo (min x hi)

/-- Keep the first occurrence of every element, dropping later duplicates.
Used to describe the distinct values of a column in emergence order. -/
def firstDedup {β : Type} [DecidableEq β] : List β → List β
  | [] => []
  | x :: xs => x :: (firstDedup xs).filter (fun y => decide (y ≠ x))

theorem clipQ_nonneg (x hi : ℚ) : 0 ≤ clipQ x 0 hi := le_max_left _ _

theorem clipQ_le (x lo hi : ℚ) (h : lo ≤ hi) : clipQ x lo hi ≤ hi :=
  max_le h (min_le_right _ _)

/-! ## Filter engine

`src/src/components/sidebar.py` defines the immutable `Filters` value object
(six inclusive numeric ranges, four string multiselects defaulted to the
empty list, four 0/1 multiselects defaulted to `[0, 1]`), and
`src/src/core/processing.py` defines `apply_filters`, which ANDs one mask
per attribute over the frame. The numeric columns may contain missing
values, so they are embedded as `Option ℚ`; `Series.between` is false on a
missing value, as every comparison with NaN is false in pandas. -/

/-- Filter specification, the embedding of the frozen dataclass `Filters`
of `sidebar.py`. -/
structure Filters where
  age_range : ℚ × ℚ
  income_range : ℚ × ℚ
  loan_amount_range : ℚ × ℚ
  credit_score_range : ℚ × ℚ
  interest_rate_range : ℚ × ℚ
  dti_range : ℚ × ℚ
  education : List String
  employment_type : List String
  marital_status : List String
  has_mortgage : List ℤ
  has_dependents : List ℤ
  loan_purpose : List String
  has_cosigner : List ℤ
  default : List ℤ
deriving DecidableEq, Repr

/-- One data row as read by `apply_filters`: the six range-filtered numeric
columns (nullable), the four categorical columns (nullable), and the four
binary columns, which the loader has normalized to integers. -/
structure FilterRow where
  Age : Option ℚ
  Income : Option ℚ
  LoanAmount : Option ℚ
  CreditScore : Option ℚ
  InterestRate : Option ℚ
  DTIRatio : Option ℚ
  Education : Option String
  EmploymentType : Option String
  MaritalStatus : Option String
  LoanPurpose : Option String
  HasMortgage : ℤ
  HasDependents : ℤ
  HasCoSigner : ℤ
  Default : ℤ
deriving DecidableEq, Repr

/-- Embedding of `Series.between(lo, hi)` (inclusive on both ends) on a
nullable numeric cell: a missing value compares false. -/
def seriesBetween (v : Option ℚ) (lo hi : ℚ) : Bool :=
  match v with
  | none => false
  | some x => decide (lo ≤ x) && decide (x ≤ hi)

/-- Embedding of `Series.isin(values)` on a nullable string cell: a missing
value is not a member of a list of strings. -/
def seriesIsin (v : Option String) (values : List String) : Bool :=
  match v with
  | none => false
  | some x => values.contains x

/-- Embedding of `apply_filters(df, f)` from `processing.py`: one conjoined
mask. The four string multiselects are guarded by Python truthiness
(`if f.education:` and alike), so an empty list imposes no constraint there;
the four binary columns and `Default` are tested with `isin`
unconditionally. -/
def apply_filters (df : List FilterRow) (f : Filters) : List FilterRow :=
  df.filter fun r =>
    seriesBetween r.Age f.age_range.1 f.age_range.2 &&
    seriesBetween r.Income f.income_range.1 f.income_range.2 &&
    seriesBetween r.LoanAmount f.loan_amount_range.1 f.loan_amount_range.2 &&
    seriesBetween r.CreditScore f.credit_score_range.1 f.credit_score_range.2 &&
    seriesBetween r.InterestRate f.interest_rate_range.1 f.interest_rate_range.2 &&
    seriesBetween r.DTIRatio f.dti_range.1 f.dti_range.2 &&
    (if f.education.isEmpty then true else seriesIsin r.Education f.education) &&
    (if f.employment_type.isEmpty then true else seriesIsin r.EmploymentType f.employment_type) &&
    (if f.marital_status.isEmpty then true else seriesIsin r.MaritalStatus f.marital_status) &&
    (if f.loan_purpose.isEmpty then true else seriesIsin r.LoanPurpose f.loan_purpose) &&
    f.has_mortgage.contains r.HasMortgage &&
    f.has_dependents.contains r.HasDependents &&
    f.has_cosigner.contains r.HasCoSigner &&
    f.default.contains r.Default

/-- Helper: an `if`-guarded categorical mask is passed exactly when the
allowed-list is empty or the row value is listed. -/
theorem ifEmpty_guard_eq_true (l : List String) (b : Bool) :
    (if l.isEmpty then true else b) = true ↔ (l = [] ∨ b = true) := by
  cases l <;> simp

/-- A row passing every other mask of `apply_filters`. -/
def rowAllPass : FilterRow :=
  { Age := some 30, Income := some 1000, LoanAmount := some 5000,
    CreditScore := some 600, InterestRate := some 10, DTIRatio := some 0,
    Education := some "HS", EmploymentType := some "FT",
    MaritalStatus := some "S", LoanPurpose := some "Auto",
    HasMortgage := 0, HasDependents := 0, HasCoSigner := 0, Default := 0 }

/-- A fully permissive filter specification: ranges covering `rowAllPass`,
empty categorical allow-lists, and the sidebar's `[0, 1]` defaults on the
binary multiselects. -/
def filtersOpen : Filters :=
  { age_range := (0, 100), income_range := (0, 10000),
    loan_amount_range := (0, 100000), credit_score_range := (0, 1000),
    interest_rate_range := (0, 100), dti_range := (0, 10),
    education := [], employment_type := [], marital_status := [],
    loan_purpose := [],
    has_mortgage := [0, 1], has_dependents := [0, 1], has_cosigner := [0, 1],
    default := [0, 1] }

/-- The same filter specification with an empty allowed-set on the binary
attribute `HasMortgage`. -/
def filtersEmptyHM : Filters := { filtersOpen with has_mortgage := [] }

/-- C1, counterexample. An empty allowed-set does NOT mean "no restriction"
for a binary attribute: with every other mask passing the row, emptying the
`has_mortgage` allowed-set excludes the row, whereas the claim requires it
to impose no constraint. -/
theorem empty_binary_allowset_excludes_all :
    apply_filters [rowAllPass] filtersOpen = [rowAllPass] ∧
    filtersEmptyHM = { filtersOpen with has_mortgage := [] } ∧
    apply_filters [rowAllPass] filtersEmptyHM = [] := by
  refine ⟨?_, rfl, ?_⟩ <;> decide

/-- C1, amended. Membership in `apply_filters df f`: the six numeric range
masks apply; for each of the four categorical attributes an empty
allowed-set imposes no constraint and a non-empty one keeps exactly the
rows whose value is a member; for the four binary attributes the
membership test applies unconditionally (so an empty allowed-set there
excludes every row). -/
theorem apply_filters_mem_iff (df : List FilterRow) (f : Filters) (r : FilterRow) :
    r ∈ apply_filters df f ↔
      r ∈ df ∧
      seriesBetween r.Age f.age_range.1 f.age_range.2 = true ∧
      seriesBetween r.Income f.income_range.1 f.income_range.2 = true ∧
      seriesBetween r.LoanAmount f.loan_amount_range.1 f.loan_amount_range.2 = true ∧
      seriesBetween r.CreditScore f.credit_score_range.1 f.credit_score_range.2 = true ∧
      seriesBetween r.InterestRate f.interest_rate_range.1 f.interest_rate_range.2 = true ∧
      seriesBetween r.DTIRatio f.dti_range.1 f.dti_range.2 = true ∧
      (f.education = [] ∨ seriesIsin r.Education f.education = true) ∧
      (f.employment_type = [] ∨ seriesIsin r.EmploymentType f.employment_type = true) ∧
      (f.marital_status = [] ∨ seriesIsin r.MaritalStatus f.marital_status = true) ∧
      (f.loan_purpose = [] ∨ seriesIsin r.LoanPurpose f.loan_purpose = true) ∧
      r.HasMortgage ∈ f.has_mortgage ∧
      r.HasDependents ∈ f.has_dependents ∧
      r.HasCoSigner ∈ f.has_cosigner ∧
      r.Default ∈ f.default := by
  simp only [apply_filters, List.mem_filter, Bool.and_eq_true, ifEmpty_guard_eq_true,
    List.contains, List.elem_iff, decide_eq_true_eq, and_assoc]

/-- A row with a missing `Age` cell. -/
def rowMissingAge : FilterRow := { rowAllPass with Age := none }

/-- C10. A row whose value is missing in any of the six range-filtered
numeric attributes is excluded by `apply_filters`, whatever the filter
specification (in particular even when every range spans the full data
extent): `Series.between` is false on NaN. -/
theorem apply_filters_excludes_missing_numerics
    (df : List FilterRow) (f : Filters) (r : FilterRow)
    (h : r.Age = none ∨ r.Income = none ∨ r.LoanAmount = none ∨
         r.CreditScore = none ∨ r.InterestRate = none ∨ r.DTIRatio = none) :
    r ∉ apply_filters df f := by
  intro hmem
  rw [apply_filters, List.mem_filter] at hmem
  rcases h with h | h | h | h | h | h <;>
    simp [seriesBetween, h] at hmem

/-- C10, witness: the missing-`Age` row is dropped even by the fully
permissive filter specification. -/
theorem apply_filters_excludes_missing_numerics_witness :
    (rowMissingAge.Age = none ∨ rowMissingAge.Income = none ∨
     rowMissingAge.LoanAmount = none ∨ rowMissingAge.CreditScore = none ∨
     rowMissingAge.InterestRate = none ∨ rowMissingAge.DTIRatio = none) ∧
    rowMissingAge ∉ apply_filters [rowMissingAge] filtersOpen :=
  ⟨Or.inl rfl,
    apply_filters_excludes_missing_numerics [rowMissingAge] filtersOpen rowMissingAge
      (Or.inl rfl)⟩

/-! ## Risk scorer

`src/src/core/risk.py`. `compute_risk_score` blends a clipped DTI
component, an inverted min-max normalized credit score, and an
interest-rate component scaled between the recordset's 5th and 95th
percentiles (`Series.quantile`, linear interpolation), the whole clipped to
`[0, 1]`. When `p95 > p5` fails, the interest-rate series is replaced by
`ir * 0`. The three columns it reads are embedded as rationals. -/

/-- One row as read by `compute_risk_score`. -/
structure RiskRow where
  DTIRatio : ℚ
  CreditScore : ℚ
  InterestRate : ℚ
deriving DecidableEq, Repr

/-- Embedding of `Series.quantile(q)` with the default linear
interpolation: on the sorted values `s` of length `m + 1`, the result
interpolates between `s[⌊q·m⌋]` and the next value. Defined as 0 on an
empty series (pandas yields NaN there; no embedded call reaches it). -/
def quantileLinear (l : List ℚ) (q : ℚ) : ℚ :=
  let s := List.insertionSort (· ≤ ·) l
  match s.length with
  | 0 => 0
  | Nat.succ m =>
    let pos := q * (m : ℚ)
    let i := (⌊pos⌋).toNat
    let lo := s.getD i 0
    let hi := s.getD (i + 1) lo
    lo + (pos - (i : ℚ)) * (hi - lo)

/-- The pair `(p5, p95)` of `compute_risk_score`, taken over the
recordset's interest-rate column. -/
def ir_p5p95 (df : List RiskRow) : ℚ × ℚ :=
  let ir := df.map (·.InterestRate)
  (quantileLinear ir (5/100), quantileLinear ir (95/100))

/-- The interest-rate component of `compute_risk_score` for one cell `x`,
with the percentiles shared across the recordset: robust min-max scaling
clipped to `[0, 1]` when `p95 > p5`, and the `ir * 0` fallback otherwise. -/
def ir_norm (df : List RiskRow) (x : ℚ) : ℚ :=
  let p := ir_p5p95 df
  if p.1 < p.2 then clipQ ((x - p.1) / (p.2 - p.1)) 0 1 else x * 0

/-- Embedding of `compute_risk_score(df)`:
`clip(0.45·clip(dti,0,1) + 0.35·(1 − clip((clip(cs,300,850)−300)/550,0,1)) + 0.20·ir_norm, 0, 1)`
per row. -/
def compute_risk_score (df : List RiskRow) : List ℚ :=
  df.map fun r =>
    let dti := clipQ r.DTIRatio 0 1
    let cs_norm := clipQ ((clipQ r.CreditScore 300 850 - 300) / (850 - 300)) 0 1
    let cs_risk := 1 - cs_norm
    clipQ (45/100 * dti + 35/100 * cs_risk + 20/100 * ir_norm df r.InterestRate) 0 1

/-- C3. Every risk score produced by `compute_risk_score` lies in `[0, 1]`,
whatever the raw values of `DTIRatio`, `CreditScore` and `InterestRate`:
the final clip bounds the output. -/
theorem compute_risk_score_mem_unit_interval (df : List RiskRow) (x : ℚ)
    (hx : x ∈ compute_risk_score df) : 0 ≤ x ∧ x ≤ 1 := by
  simp only [compute_risk_score, List.mem_map] at hx
  obtain ⟨r, -, rfl⟩ := hx
  exact ⟨clipQ_nonneg _ _, clipQ_le _ _ _ (by norm_num)⟩

/-- C3, witness: the single-row recordset `(dti 0, credit 300, rate 10)`
scores `7/20`, which lies in `[0, 1]`. -/
theorem compute_risk_score_mem_unit_interval_witness :
    ((7/20 : ℚ) ∈ compute_risk_score [⟨0, 300, 10⟩]) ∧
      (0 ≤ (7/20 : ℚ) ∧ (7/20 : ℚ) ≤ 1) := by
  have hmem : (7/20 : ℚ) ∈ compute_risk_score [⟨0, 300, 10⟩] := by
    norm_num [compute_risk_score, ir_norm, ir_p5p95, quantileLinear, clipQ,
      List.insertionSort, List.orderedInsert, List.getD, min_def, max_def]
  exact ⟨hmem, compute_risk_score_mem_unit_interval _ _ hmem⟩

/-- C6. When the 5th and 95th interest-rate percentiles of the recordset
coincide (for instance when every rate is equal, or on a single row), the
interest-rate component is 0 for every cell: the `p95 > p5` guard fails and
the fallback `ir * 0` applies. The component is a total function — no
division by the zero percentile range occurs. -/
theorem ir_norm_zero_of_degenerate_percentiles (df : List RiskRow) (x : ℚ)
    (h : (ir_p5p95 df).1 = (ir_p5p95 df).2) : ir_norm df x = 0 := by
  have hlt : ¬ (ir_p5p95 df).1 < (ir_p5p95 df).2 := by
    rw [h]
    exact lt_irrefl _
  simp [ir_norm, hlt]

/-- A two-row recordset in which all interest rates are equal. -/
def dfEqualRates : List RiskRow := [⟨0, 300, 10⟩, ⟨1, 850, 10⟩]

/-- C6, witness: with all rates equal to 10 the two percentiles coincide
and the component is 0. -/
theorem ir_norm_zero_of_degenerate_percentiles_witness :
    (ir_p5p95 dfEqualRates).1 = (ir_p5p95 dfEqualRates).2 ∧
      ir_norm dfEqualRates 10 = 0 := by
  have h : (ir_p5p95 dfEqualRates).1 = (ir_p5p95 dfEqualRates).2 := by
    norm_num [ir_p5p95, quantileLinear, dfEqualRates,
      List.insertionSort, List.orderedInsert, List.getD]
  exact ⟨h, ir_norm_zero_of_degenerate_percentiles dfEqualRates 10 h⟩

/-! ## Action ranker

`src/src/app.py`, `render_acao`, lines 220-222:
`action = df_cur.sort_values([sort_by], ascending=False).head(top_n).copy()`
then `if only_critical: action = action[action["critical_dti"]].copy()`.
The code sorts and truncates FIRST and only then restricts to the
critical rows. The embedding reads the three columns the ranking uses.
`sort_values` on one key makes no stability promise; ties are resolved
here by input order, which no claim depends on. -/

/-- One scored row as read by the action ranker. -/
structure ActionRow where
  risk_score : ℚ
  value_at_risk_item : ℚ
  critical_dti : Bool
deriving DecidableEq, Repr

/-- The two values the `sort_by` radio widget can take. -/
inductive SortKey where
  | risk_score
  | value_at_risk_item
deriving DecidableEq, Repr

/-- The column selected by `sort_by`. -/
def sortKeyVal : SortKey → ActionRow → ℚ
  | .risk_score, r => r.risk_score
  | .value_at_risk_item, r => r.value_at_risk_item

/-- Embedding of the ranking of `render_acao`: sort descending on the
chosen key, truncate to `top_n`, and — only afterwards — restrict to
`critical_dti` rows when `only_critical` is set. -/
def render_acao_action (df : List ActionRow) (sort_by : SortKey) (top_n : ℕ)
    (only_critical : Bool) : List ActionRow :=
  let action :=
    (List.insertionSort (fun a b => sortKeyVal sort_by b ≤ sortKeyVal sort_by a) df).take top_n
  if only_critical then action.filter (·.critical_dti) else action

/-- A two-row recordset: a non-critical row with the higher risk score and
a critical row with the lower one. -/
def dfAction : List ActionRow := [⟨2, 9, false⟩, ⟨1, 5, true⟩]

/-- C2, counterexample. Restricting to critical rows FIRST and then
sorting/truncating to the top 1 yields the critical row, so that row ranks
among the top-1 critical rows; but the code's ranking with `critical_only`
set returns the empty list — the top critical row is absent, because the
truncation happens before the critical restriction. -/
theorem render_acao_critical_only_counterexample :
    render_acao_action (dfAction.filter (·.critical_dti)) .risk_score 1 false =
      [⟨1, 5, true⟩] ∧
    render_acao_action dfAction .risk_score 1 true = [] := by
  constructor <;> decide

/-- C2, amended. With `critical_only` set the Action Ranker first sorts
descending by the caller-chosen key and truncates to `top_n`, and only then
restricts to the rows whose `critical_dti` flag is true: the output is
exactly the critical rows of the global top-`top_n`, and every output row
is critical. -/
theorem render_acao_critical_only_filters_after_truncation
    (df : List ActionRow) (k : SortKey) (n : ℕ) :
    render_acao_action df k n true =
      (render_acao_action df k n false).filter (·.critical_dti) ∧
    ∀ r ∈ render_acao_action df k n true, r.critical_dti = true := by
  refine ⟨rfl, ?_⟩
  intro r hr
  simp only [render_acao_action, if_true, List.mem_filter] at hr
  exact hr.2

/-- C2, amended witness: on a one-row critical recordset the ranked
critical-only list keeps the row, and it is critical. -/
theorem render_acao_critical_only_filters_after_truncation_witness :
    (⟨1, 5, true⟩ : ActionRow) ∈ render_acao_action [⟨1, 5, true⟩] .risk_score 1 true ∧
    (⟨1, 5, true⟩ : ActionRow).critical_dti = true :=
  ⟨by decide,
    (render_acao_critical_only_filters_after_truncation [⟨1, 5, true⟩] .risk_score 1).2
      ⟨1, 5, true⟩ (by decide)⟩

/-! ## Grouping

`groupby(by, dropna=False)` emits one group per distinct key; with the
default `sort=True` the groups come out ordered by ascending key, the
missing-key group last. Category labels, which pandas compares as Python
strings, are embedded as an arbitrary linearly ordered type `κ`. -/

/-- The group keys of `groupby(by, dropna=False)` in output order:
distinct non-missing keys ascending, then the missing-key group when some
key is missing. -/
def groupKeys {κ : Type} [LinearOrder κ] [DecidableEq κ]
    (keys : List (Option κ)) : List (Option κ) :=
  let distinct := firstDedup keys
  (List.insertionSort (· ≤ ·) (distinct.filterMap id)).map some ++
    (if none ∈ distinct then [none] else [])

/-! ## Portfolio aggregator and minimum-volume segment ranking

`src/src/core/metrics.py`. `compute_kpis` returns an all-zero structure on
an empty frame, otherwise plain means. `segment_default_rate` groups on the
caller-chosen dimension, aggregates `default_rate = mean(Default)` and
`count = count(LoanID)` (`LoanID` is a mandatory non-null key, so the count
is the group size), drops groups under `min_count`, and sorts on
`[default_rate, count]` descending — a multi-key `sort_values`, which
pandas performs as a stable lexicographic sort. -/

/-- One row as read by `compute_kpis`. -/
structure KpiRow where
  Default : ℤ
  LoanAmount : ℚ
  CreditScore : ℚ
  InterestRate : ℚ
deriving DecidableEq, Repr

/-- The KPI record returned by `compute_kpis`. -/
structure Kpis where
  total_loans : ℕ
  default_rate : ℚ
  avg_loan_amount : ℚ
  avg_credit_score : ℚ
  avg_interest_rate : ℚ
deriving DecidableEq, Repr

/-- Embedding of `Series.mean` on a rational column. -/
def meanQ (l : List ℚ) : ℚ := l.sum / l.length

/-- Embedding of `compute_kpis(df)` from `metrics.py`. -/
def compute_kpis (df : List KpiRow) : Kpis :=
  if df.isEmpty then ⟨0, 0, 0, 0, 0⟩
  else
    { total_loans := df.length
      default_rate := meanQ (df.map (fun r => (r.Default : ℚ)))
      avg_loan_amount := meanQ (df.map (·.LoanAmount))
      avg_credit_score := meanQ (df.map (·.CreditScore))
      avg_interest_rate := meanQ (df.map (·.InterestRate)) }

/-- One row as read by `segment_default_rate`: the grouping column
(nullable) and the loaded 0/1 `Default` outcome. -/
structure SegRow (κ : Type) where
  key : Option κ
  Default : ℤ
deriving DecidableEq, Repr

/-- One output row of `segment_default_rate`. -/
structure SegOut (κ : Type) where
  key : Option κ
  default_rate : ℚ
  count : ℕ
deriving DecidableEq, Repr

/-- The `sort_values(["default_rate", "count"], ascending=[False, False])`
ordering: `a` may precede `b` when `a` has the larger default rate, or
equal rates and at least `b`'s count. -/
def segLE {κ : Type} (a b : SegOut κ) : Prop :=
  b.default_rate < a.default_rate ∨
    (b.default_rate = a.default_rate ∧ b.count ≤ a.count)

instance {κ : Type} : DecidableRel (@segLE κ) := fun _ _ =>
  inferInstanceAs (Decidable (_ ∨ _ ∧ _))

theorem segLE_total {κ : Type} (a b : SegOut κ) : segLE a b ∨ segLE b a := by
  rcases lt_trichotomy a.default_rate b.default_rate with h | h | h
  · exact Or.inr (Or.inl h)
  · rcases le_total a.count b.count with hc | hc
    · exact Or.inr (Or.inr ⟨h, hc⟩)
    · exact Or.inl (Or.inr ⟨h.symm, hc⟩)
  · exact Or.inl (Or.inl h)

theorem segLE_trans {κ : Type} (a b c : SegOut κ) (hab : segLE a b)
    (hbc : segLE b c) : segLE a c := by
  rcases hab with h1 | ⟨h1, h1c⟩ <;> rcases hbc with h2 | ⟨h2, h2c⟩
  · exact Or.inl (lt_trans h2 h1)
  · exact Or.inl (h2 ▸ h1)
  · exact Or.inl (h1 ▸ h2)
  · exact Or.inr ⟨h2.trans h1, le_trans h2c h1c⟩

/-- The aggregation row of `segment_default_rate` for one group key. -/
def segAgg {κ : Type} [DecidableEq κ] (df : List (SegRow κ)) (k : Option κ) :
    SegOut κ :=
  let g := df.filter fun r => decide (r.key = k)
  { key := k
    default_rate := ((g.map (·.Default)).sum : ℚ) / (g.length : ℚ)
    count := g.length }

/-- Embedding of `segment_default_rate(df, by, min_count)` from
`metrics.py`: empty in, empty out; otherwise group, aggregate, drop the
groups under the volume threshold, then sort the survivors on
`[default_rate, count]` descending. -/
def segment_default_rate {κ : Type} [LinearOrder κ] [DecidableEq κ]
    (df : List (SegRow κ)) (min_count : ℕ) : List (SegOut κ) :=
  if df.isEmpty then []
  else
    let out := (groupKeys (df.map (·.key))).map (segAgg df)
    List.insertionSort segLE (out.filter fun o => decide (min_count ≤ o.count))

/-- Scenario B of the spec: five loans, three of which share loan purpose
"B". Purposes are coded as naturals: "A" ↦ 0, "B" ↦ 1, "C" ↦ 2; the three
"B" rows carry `Default` 1, 0, 0. -/
def dfScenarioB : List (SegRow ℕ) :=
  [⟨some 1, 1⟩, ⟨some 0, 0⟩, ⟨some 1, 0⟩, ⟨some 2, 1⟩, ⟨some 1, 0⟩]

/-- C5. The minimum-volume segment ranking never contains a group whose
count is below `min_count`, and its rows are ordered by `default_rate`
descending with `count` descending as tie-break; on Scenario B (three of
five rows share purpose "B", `min_count = 3`) it is exactly one row, for
"B", with default rate `1/3`. -/
theorem segment_default_rate_min_count_spec :
    (∀ (κ : Type) [LinearOrder κ] [DecidableEq κ]
       (df : List (SegRow κ)) (min_count : ℕ),
       (∀ o ∈ segment_default_rate df min_count, min_count ≤ o.count) ∧
       (segment_default_rate df min_count).Pairwise
         (fun a b => b.default_rate < a.default_rate ∨
           (b.default_rate = a.default_rate ∧ b.count ≤ a.count))) ∧
    segment_default_rate dfScenarioB 3 = [⟨some 1, 1/3, 3⟩] := by
  constructor
  · intro κ _ _ df min_count
    constructor
    · intro o ho
      unfold segment_default_rate at ho
      split at ho
      · simp at ho
      · rw [List.mem_insertionSort, List.mem_filter] at ho
        exact of_decide_eq_true ho.2
    · unfold segment_default_rate
      split
      · exact List.Pairwise.nil
      · haveI : IsTotal (SegOut κ) segLE := ⟨segLE_total⟩
        haveI : IsTrans (SegOut κ) segLE := ⟨segLE_trans⟩
        exact List.sorted_insertionSort segLE _
  · norm_num [segment_default_rate, groupKeys, firstDedup, segAgg, segLE,
      dfScenarioB, List.insertionSort, List.orderedInsert, List.filterMap]

/-- C5, witness: the single Scenario-B output row is the "B" group, whose
count 3 meets the threshold 3. -/
theorem segment_default_rate_min_count_spec_witness :
    (⟨some 1, 1/3, 3⟩ : SegOut ℕ) ∈ segment_default_rate dfScenarioB 3 ∧
    3 ≤ (⟨some 1, 1/3, 3⟩ : SegOut ℕ).count :=
  ⟨by rw [segment_default_rate_min_count_spec.2]; exact List.mem_singleton.2 rfl,
   (segment_default_rate_min_count_spec.1 ℕ dfScenarioB 3).1 _
     (by rw [segment_default_rate_min_count_spec.2]; exact List.mem_singleton.2 rfl)⟩

/-- C8. On a zero-row recordset `compute_kpis` returns the all-zero KPI
structure (count 0, rate 0, averages 0) and `segment_default_rate` returns
the empty table, for every grouping dimension and threshold; neither is an
error. -/
theorem empty_input_kpis_and_segments :
    compute_kpis [] = ⟨0, 0, 0, 0, 0⟩ ∧
    ∀ (κ : Type) [LinearOrder κ] [DecidableEq κ] (min_count : ℕ),
      segment_default_rate (κ := κ) [] min_count = [] := by
  exact ⟨rfl, fun κ _ _ min_count => rfl⟩

/-! ## Segment profiler

`src/src/visualizations.py`, `build_segment_profile(df, by)`: empty in,
empty out; otherwise group on the dimension (`dropna=False`), aggregate
count / default rate / value-at-risk sum / medians / modal categories, add
the `risk_share` column (`var_sum / total_var` when the total is positive,
0 otherwise), and sort on `["var_sum", "default_rate", "count"]` all
descending — a stable lexicographic sort in pandas, so rows tied on all
three keys keep the aggregation's ascending group-key order. The mode
helper drops missing values and reports the sentinel "N/A" (embedded as
`none`) for all-missing groups; on ties `Series.mode` returns the values
sorted, and `.iloc[0]` picks the smallest. -/

/-- One enriched row as read by `build_segment_profile`. -/
structure ProfRow (κ : Type) where
  key : Option κ
  Default : ℤ
  value_at_risk_item : ℚ
  Age : ℚ
  Income : ℚ
  CreditScore : ℚ
  DTIRatio : ℚ
  EmploymentType : Option κ
  Education : Option κ
  MaritalStatus : Option κ
deriving DecidableEq, Repr

/-- One output row of `build_segment_profile`. -/
structure ProfOut (κ : Type) where
  key : Option κ
  count : ℕ
  default_rate : ℚ
  var_sum : ℚ
  age_med : ℚ
  income_med : ℚ
  score_med : ℚ
  dti_med : ℚ
  emp_mode : Option κ
  edu_mode : Option κ
  mar_mode : Option κ
  risk_share : ℚ
deriving DecidableEq, Repr

/-- Embedding of `Series.median`: middle of the sorted values, the mean of
the two middles on even length. Defined as 0 on an empty series, which no
embedded call reaches (groups are nonempty). -/
def median (l : List ℚ) : ℚ :=
  let s := List.insertionSort (· ≤ ·) l
  if s.length % 2 = 1 then s.getD (s.length / 2) 0
  else (s.getD (s.length / 2 - 1) 0 + s.getD (s.length / 2) 0) / 2

/-- Embedding of `mode_or_na`: drop missing values; if nothing remains
report the "N/A" sentinel (here `none`); otherwise the most frequent value,
the smallest one on frequency ties (`Series.mode` sorts, `.iloc[0]`). -/
def mode_or_na {κ : Type} [LinearOrder κ] [DecidableEq κ]
    (l : List (Option κ)) : Option κ :=
  let s := l.filterMap id
  (List.insertionSort (· ≤ ·) (firstDedup s)).foldl
    (fun acc c =>
      match acc with
      | none => some c
      | some b => if s.count b < s.count c then some c else acc)
    none

/-- The `sort_values(["var_sum", "default_rate", "count"],
ascending=[False, False, False])` ordering: larger `var_sum` first, then
larger `default_rate`, then larger `count`. -/
def profLE {κ : Type} (a b : ProfOut κ) : Prop :=
  b.var_sum < a.var_sum ∨
    (b.var_sum = a.var_sum ∧
      (b.default_rate < a.default_rate ∨
        (b.default_rate = a.default_rate ∧ b.count ≤ a.count)))

instance {κ : Type} : DecidableRel (@profLE κ) := fun _ _ =>
  inferInstanceAs (Decidable (_ ∨ _ ∧ (_ ∨ _ ∧ _)))

theorem profLE_total {κ : Type} (a b : ProfOut κ) : profLE a b ∨ profLE b a := by
  rcases lt_trichotomy a.var_sum b.var_sum with h | h | h
  · exact Or.inr (Or.inl h)
  · rcases lt_trichotomy a.default_rate b.default_rate with h2 | h2 | h2
    · exact Or.inr (Or.inr ⟨h, Or.inl h2⟩)
    · rcases le_total a.count b.count with hc | hc
      · exact Or.inr (Or.inr ⟨h, Or.inr ⟨h2, hc⟩⟩)
      · exact Or.inl (Or.inr ⟨h.symm, Or.inr ⟨h2.symm, hc⟩⟩)
    · exact Or.inl (Or.inr ⟨h.symm, Or.inl h2⟩)
  · exact Or.inl (Or.inl h)

theorem profLE_trans {κ : Type} (a b c : ProfOut κ) (hab : profLE a b)
    (hbc : profLE b c) : profLE a c := by
  rcases hab with h1 | ⟨h1, hab2⟩ <;> rcases hbc with h2 | ⟨h2, hbc2⟩
  · exact Or.inl (lt_trans h2 h1)
  · exact Or.inl (h2 ▸ h1)
  · exact Or.inl (h1 ▸ h2)
  · refine Or.inr ⟨h2.trans h1, ?_⟩
    rcases hab2 with g1 | ⟨g1, g1c⟩ <;> rcases hbc2 with g2 | ⟨g2, g2c⟩
    · exact Or.inl (lt_trans g2 g1)
    · exact Or.inl (g2 ▸ g1)
    · exact Or.inl (g1 ▸ g2)
    · exact Or.inr ⟨g2.trans g1, le_trans g2c g1c⟩

/-- The aggregation row of `build_segment_profile` for one group key, with
the `risk_share` column not yet attached (0), as in the source, where the
column is added after the aggregation. -/
def profAgg {κ : Type} [LinearOrder κ] [DecidableEq κ]
    (df : List (ProfRow κ)) (k : Option κ) : ProfOut κ :=
  let g := df.filter fun r => decide (r.key = k)
  { key := k
    count := g.length
    default_rate := ((g.map (·.Default)).sum : ℚ) / (g.length : ℚ)
    var_sum := (g.map (·.value_at_risk_item)).sum
    age_med := median (g.map (·.Age))
    income_med := median (g.map (·.Income))
    score_med := median (g.map (·.CreditScore))
    dti_med := median (g.map (·.DTIRatio))
    emp_mode := mode_or_na (g.map (·.EmploymentType))
    edu_mode := mode_or_na (g.map (·.Education))
    mar_mode := mode_or_na (g.map (·.MaritalStatus))
    risk_share := 0 }

/-- The aggregated table `out` of `build_segment_profile`, one row per
group in ascending key order (missing key last). -/
def profTable {κ : Type} [LinearOrder κ] [DecidableEq κ]
    (df : List (ProfRow κ)) : List (ProfOut κ) :=
  (groupKeys (df.map (·.key))).map (profAgg df)

/-- The `total_var` of `build_segment_profile`:
`float(out["var_sum"].sum()) if out["var_sum"].sum() else 0.0`. -/
def profTotalVar {κ : Type} [LinearOrder κ] [DecidableEq κ]
    (df : List (ProfRow κ)) : ℚ :=
  let tv0 := ((profTable df).map (·.var_sum)).sum
  if tv0 ≠ 0 then tv0 else 0

/-- The aggregated table with the `risk_share` column attached:
`out["risk_share"] = (out["var_sum"] / total_var) if total_var > 0 else 0.0`. -/
def profShares {κ : Type} [LinearOrder κ] [DecidableEq κ]
    (df : List (ProfRow κ)) : List (ProfOut κ) :=
  (profTable df).map fun o =>
    { o with risk_share :=
        if 0 < profTotalVar df then o.var_sum / profTotalVar df else 0 }

/-- Embedding of `build_segment_profile(df, by)`. -/
def build_segment_profile {κ : Type} [LinearOrder κ] [DecidableEq κ]
    (df : List (ProfRow κ)) : List (ProfOut κ) :=
  if df.isEmpty then [] else List.insertionSort profLE (profShares df)

/-- The total value-at-risk across the groups of one profile call. -/
def profile_total_var {κ : Type} [LinearOrder κ] [DecidableEq κ]
    (df : List (ProfRow κ)) : ℚ :=
  ((build_segment_profile df).map (·.var_sum)).sum

theorem list_sum_map_div {α : Type} (l : List α) (f : α → ℚ) (c : ℚ) :
    (l.map fun x => f x / c).sum = (l.map f).sum / c := by
  induction l with
  | nil => simp
  | cons x xs ih => simp [ih, add_div]

theorem profShares_var_sum {κ : Type} [LinearOrder κ] [DecidableEq κ]
    (df : List (ProfRow κ)) :
    (profShares df).map (fun o => o.var_sum) = (profTable df).map (fun o => o.var_sum) := by
  simp only [profShares, List.map_map]
  rfl

theorem profTotalVar_eq {κ : Type} [LinearOrder κ] [DecidableEq κ]
    (df : List (ProfRow κ)) :
    profTotalVar df = ((profTable df).map (fun o => o.var_sum)).sum := by
  unfold profTotalVar
  by_cases h : ((profTable df).map (fun o => o.var_sum)).sum = 0 <;> simp [h]

theorem build_segment_profile_perm {κ : Type} [LinearOrder κ] [DecidableEq κ]
    (df : List (ProfRow κ)) (h : ¬ df.isEmpty = true) :
    (build_segment_profile df).Perm (profShares df) := by
  rw [build_segment_profile, if_neg h]
  exact List.perm_insertionSort _ _

theorem profile_total_var_eq {κ : Type} [LinearOrder κ] [DecidableEq κ]
    (df : List (ProfRow κ)) (h : ¬ df.isEmpty = true) :
    profile_total_var df = profTotalVar df := by
  unfold profile_total_var
  rw [((build_segment_profile_perm df h).map (fun o => o.var_sum)).sum_eq,
    profShares_var_sum, profTotalVar_eq]

/-- C4. Within one segment-profile call, the `risk_share` values sum to 1
when the total value-at-risk across groups is positive, and every
`risk_share` is 0 (a well-defined rational, not an undefined quotient) when
the total is 0. -/
theorem risk_share_sum_one_or_zero {κ : Type} [LinearOrder κ] [DecidableEq κ]
    (df : List (ProfRow κ)) :
    (0 < profile_total_var df →
      ((build_segment_profile df).map (fun o => o.risk_share)).sum = 1) ∧
    (profile_total_var df = 0 →
      ∀ o ∈ build_segment_profile df, o.risk_share = 0) := by
  by_cases hemp : df.isEmpty = true
  · constructor
    · intro hpos
      rw [profile_total_var, build_segment_profile, if_pos hemp] at hpos
      simp at hpos
    · intro _ o ho
      rw [build_segment_profile, if_pos hemp] at ho
      simp at ho
  · have htv : profile_total_var df = profTotalVar df := profile_total_var_eq df hemp
    constructor
    · intro hpos
      rw [htv] at hpos
      rw [((build_segment_profile_perm df hemp).map (fun o => o.risk_share)).sum_eq]
      have : (profShares df).map (fun o => o.risk_share) =
          (profTable df).map (fun o => o.var_sum / profTotalVar df) := by
        simp only [profShares, List.map_map]
        refine List.map_congr_left fun o _ => ?_
        simp [if_pos hpos]
      rw [this, list_sum_map_div, ← profTotalVar_eq]
      exact div_self (ne_of_gt hpos)
    · intro hzero o ho
      rw [htv] at hzero
      have ho2 := (build_segment_profile_perm df hemp).subset ho
      rw [profShares] at ho2
      obtain ⟨o', -, rfl⟩ := List.mem_map.1 ho2
      simp [hzero]

/-- A one-row recordset with a positive value-at-risk item. -/
def dfOneGroup : List (ProfRow ℕ) :=
  [⟨some 0, 1, 2, 30, 1000, 600, 0, some 0, none, none⟩]

/-- C4, witness: on the one-row recordset the total value-at-risk is 2 > 0
and the risk shares sum to 1. -/
theorem risk_share_sum_one_or_zero_witness :
    0 < profile_total_var dfOneGroup ∧
    ((build_segment_profile dfOneGroup).map (fun o => o.risk_share)).sum = 1 := by
  have hpos : 0 < profile_total_var dfOneGroup := by
    norm_num [profile_total_var, build_segment_profile, profShares, profTable,
      profTotalVar, profAgg, groupKeys, firstDedup, dfOneGroup, median,
      mode_or_na, List.insertionSort, List.orderedInsert, List.filterMap,
      List.getD]
  exact ⟨hpos, (risk_share_sum_one_or_zero dfOneGroup).1 hpos⟩

/-- Two rows, identical but for the grouping key; the group with the
larger key (1, for "Z") emerges first in the data, the group with the
smaller key (0, for "A") second. -/
def dfTie : List (ProfRow ℕ) :=
  [⟨some 1, 0, 1, 30, 10, 600, 0, some 0, some 0, some 0⟩,
   ⟨some 0, 0, 1, 30, 10, 600, 0, some 0, some 0, some 0⟩]

/-- The profile row of the key-0 group of `dfTie`. -/
def oTieA : ProfOut ℕ := ⟨some 0, 1, 0, 1, 30, 10, 600, 0, some 0, some 0, some 0, 1/2⟩

/-- The profile row of the key-1 group of `dfTie`. -/
def oTieZ : ProfOut ℕ := ⟨some 1, 1, 0, 1, 30, 10, 600, 0, some 0, some 0, some 0, 1/2⟩

/-- C7, counterexample. On `dfTie` the two groups are tied on `var_sum`,
`default_rate` and `count`, and the key-1 group emerges first in the data;
yet the profile lists the key-0 group first: ties follow the grouping's
ascending key order, not the original group emergence order. -/
theorem profile_tie_order_not_emergence :
    build_segment_profile dfTie = [oTieA, oTieZ] ∧
    oTieA.var_sum = oTieZ.var_sum ∧
    oTieA.default_rate = oTieZ.default_rate ∧
    oTieA.count = oTieZ.count ∧
    firstDedup (dfTie.map (fun r => r.key)) = [some 1, some 0] ∧
    (build_segment_profile dfTie).map (fun o => o.key) = [some 0, some 1] := by
  have h : build_segment_profile dfTie = [oTieA, oTieZ] := by
    simp [build_segment_profile, profShares, profTable, profTotalVar,
      profAgg, groupKeys, firstDedup, dfTie, oTieA, oTieZ, median, mode_or_na,
      profLE, List.insertionSort, List.orderedInsert, List.filterMap,
      List.getD]
    norm_num
  refine ⟨h, rfl, rfl, rfl, by decide, by rw [h]; rfl⟩

/-- C7, amended. The segment-profile table is ordered by `var_sum`
descending, then `default_rate` descending, then `count` descending; the
sort is stable over the aggregated table `profShares`, whose rows stand in
ascending group-key order (missing key last) — so for rows tied on all
three keys the output order is the deterministic ascending key order of the
grouping, not the original group emergence order. -/
theorem build_segment_profile_sorted_stable :
    (∀ (κ : Type) [LinearOrder κ] [DecidableEq κ] (df : List (ProfRow κ)),
      (build_segment_profile df).Pairwise
        (fun a b => b.var_sum < a.var_sum ∨
          (b.var_sum = a.var_sum ∧
            (b.default_rate < a.default_rate ∨
              (b.default_rate = a.default_rate ∧ b.count ≤ a.count))))) ∧
    (∀ (κ : Type) [LinearOrder κ] [DecidableEq κ] (df : List (ProfRow κ))
      (a b : ProfOut κ), profLE a b → [a, b].Sublist (profShares df) →
      [a, b].Sublist (build_segment_profile df)) := by
  constructor
  · intro κ _ _ df
    unfold build_segment_profile
    split
    · exact List.Pairwise.nil
    · haveI : IsTotal (ProfOut κ) profLE := ⟨profLE_total⟩
      haveI : IsTrans (ProfOut κ) profLE := ⟨profLE_trans⟩
      exact List.sorted_insertionSort profLE _
  · intro κ _ _ df a b hab hsub
    unfold build_segment_profile
    split
    · rename_i hemp
      rw [List.isEmpty_iff] at hemp
      subst hemp
      exact absurd (List.sublist_nil.1 hsub) (by simp)
    · exact List.pair_sublist_insertionSort hab hsub

/-- C7, amended witness: on `dfTie` the two fully tied rows stand in
ascending key order in the aggregated table and keep that order in the
sorted profile. -/
theorem build_segment_profile_sorted_stable_witness :
    profLE oTieA oTieZ ∧ [oTieA, oTieZ].Sublist (build_segment_profile dfTie) := by
  have hab : profLE oTieA oTieZ := Or.inr ⟨rfl, Or.inr ⟨rfl, le_refl _⟩⟩
  have hshares : profShares dfTie = [oTieA, oTieZ] := by
    simp [profShares, profTable, profTotalVar, profAgg, groupKeys,
      firstDedup, dfTie, oTieA, oTieZ, median, mode_or_na,
      List.insertionSort, List.orderedInsert, List.filterMap, List.getD]
    norm_num
  exact ⟨hab, build_segment_profile_sorted_stable.2 ℕ dfTie oTieA oTieZ hab
    (hshares ▸ List.Sublist.refl _)⟩

/-! ## Dataset loader

`src/src/database/loader.py`. After reading the CSV, `load_dataset` runs
`normalize_binary_yes_no` (which maps the three Yes/No columns to 1/0 and
fails fast on unexpected values) BEFORE `_validate_schema` (which raises a
`ValueError` naming exactly the required columns that are absent), and then
casts `Default` to int. Accessing a missing column inside
`normalize_binary_yes_no` (`df[col]`) raises a `KeyError` naming that
column, so the descriptive schema error is never reached when one of the
three Yes/No columns is missing. A raw table is a list of
`(column name, string cells)` pairs; `str.strip()` is the whitespace strip
on both ends. -/

/-- A raw table as produced by `pd.read_csv`: named columns of text cells. -/
abbrev RawTable := List (String × List String)

/-- The errors the load path can raise. -/
inductive LoadError where
  | keyError (col : String)
  | unexpectedBinaryValues (col : String)
  | schemaMismatch (missing : List String)
  | intCastError (col : String)
deriving DecidableEq, Repr

/-- The `REQUIRED_COLUMNS` list of `loader.py`, in source order. -/
def REQUIRED_COLUMNS : List String :=
  ["LoanID", "Age", "Income", "LoanAmount", "CreditScore", "MonthsEmployed",
   "NumCreditLines", "InterestRate", "LoanTerm", "DTIRatio", "Education",
   "EmploymentType", "MaritalStatus", "HasMortgage", "HasDependents",
   "LoanPurpose", "HasCoSigner", "Default"]

/-- Column access `df[col]`: the cells of the first column of that name. -/
def getCol : RawTable → String → Option (List String)
  | [], _ => none
  | p :: ps, c => if p.1 = c then some p.2 else getCol ps c

/-- Column assignment `df[col] = v`. -/
def setCol (t : RawTable) (c : String) (v : List String) : RawTable :=
  t.map fun p => if p.1 = c then (p.1, v) else p

/-- Embedding of Python `str.strip()`. -/
def stripText (s : String) : String :=
  String.mk (((s.data.dropWhile (fun ch => ch.isWhitespace)).reverse.dropWhile
    (fun ch => ch.isWhitespace)).reverse)

/-- The `yn_map` of `normalize_binary_yes_no`, on already-stripped text;
unlisted values map to NaN (`none`). -/
def ynMap (s : String) : Option String :=
  if s = "Yes" then some "1" else if s = "No" then some "0" else none

/-- One iteration of the `normalize_binary_yes_no` loop: accessing a
missing column raises `KeyError col`; a value outside Yes/No raises the
descriptive `ValueError`; otherwise the column is rewritten to 1/0. -/
def normalizeCol (t : RawTable) (col : String) : Except LoadError RawTable :=
  match getCol t col with
  | none => .error (.keyError col)
  | some vs =>
    let mapped := vs.map fun s => ynMap (stripText s)
    if mapped.any (fun o => o.isNone) then .error (.unexpectedBinaryValues col)
    else .ok (setCol t col (mapped.map fun o => o.getD "0"))

/-- Embedding of `normalize_binary_yes_no(df)`: the three binary columns in
source order. -/
def normalize_binary_yes_no (t : RawTable) : Except LoadError RawTable := do
  let t1 ← normalizeCol t "HasMortgage"
  let t2 ← normalizeCol t1 "HasDependents"
  normalizeCol t2 "HasCoSigner"

/-- Embedding of `_validate_schema(df, REQUIRED_COLUMNS)`: collect the
required columns that are absent, in source order, and fail naming exactly
them. -/
def validate_schema (t : RawTable) : Except LoadError Unit :=
  let missing := REQUIRED_COLUMNS.filter fun c => (getCol t c).isNone
  if missing.isEmpty then .ok () else .error (.schemaMismatch missing)

/-- Integer-text check standing for `astype(int)` on a text column. -/
def isIntText (s : String) : Bool :=
  let ds := if s.data.head? = some '-' then s.data.tail else s.data
  !ds.isEmpty && ds.all (fun ch => ch.isDigit)

/-- Embedding of the validating tail of `load_dataset` (the file-system and
caching parts are out of scope): normalize the Yes/No columns, validate the
schema, then cast `Default` to int. -/
def load_dataset (t : RawTable) : Except LoadError RawTable := do
  let t1 ← normalize_binary_yes_no t
  let _ ← validate_schema t1
  match getCol t1 "Default" with
  | none => .error (.keyError "Default")
  | some vs =>
    if vs.all isIntText then .ok (setCol t1 "Default" vs)
    else .error (.intCastError "Default")

/-- A table carrying all required columns except `HasMortgage`, with valid
values everywhere. -/
def tMissingHM : RawTable :=
  [("LoanID", ["1"]), ("Age", ["30"]), ("Income", ["1"]), ("LoanAmount", ["1"]),
   ("CreditScore", ["600"]), ("MonthsEmployed", ["1"]), ("NumCreditLines", ["1"]),
   ("InterestRate", ["10"]), ("LoanTerm", ["12"]), ("DTIRatio", ["0"]),
   ("Education", ["HS"]), ("EmploymentType", ["FT"]), ("MaritalStatus", ["S"]),
   ("HasDependents", ["Yes"]), ("LoanPurpose", ["Auto"]), ("HasCoSigner", ["No"]),
   ("Default", ["0"])]

/-- C9, counterexample. With `HasMortgage` absent, loading fails with the
`KeyError` raised by the normalization step — not with the descriptive
schema error naming the missing column, because `normalize_binary_yes_no`
runs before `_validate_schema`. -/
theorem missing_binary_column_keyerror :
    load_dataset tMissingHM = .error (.keyError "HasMortgage") ∧
    LoadError.keyError "HasMortgage" ≠ .schemaMismatch ["HasMortgage"] :=
  ⟨rfl, by decide⟩

/-- A Yes/No column that the normalization step accepts: present, every
stripped cell "Yes" or "No". -/
def ynColOk (t : RawTable) (c : String) : Prop :=
  ∃ vs, getCol t c = some vs ∧ ∀ s ∈ vs, stripText s = "Yes" ∨ stripText s = "No"

theorem getCol_setCol_ne (c c' : String) (v : List String) (h : c' ≠ c)
    (t : RawTable) : getCol (setCol t c v) c' = getCol t c' := by
  induction t with
  | nil => rfl
  | cons p ps ih =>
    simp only [setCol, List.map_cons] at ih ⊢
    by_cases hpc : p.1 = c
    · rw [if_pos hpc]
      simp only [getCol]
      have hne : ¬ p.1 = c' := by
        rw [hpc]
        exact fun he => h he.symm
      rw [if_neg hne, if_neg hne]
      exact ih
    · rw [if_neg hpc]
      simp only [getCol]
      by_cases hpx : p.1 = c'
      · rw [if_pos hpx, if_pos hpx]
      · rw [if_neg hpx, if_neg hpx]
        exact ih

theorem getCol_setCol_isNone (t : RawTable) (c : String) (v : List String)
    (x : String) : (getCol (setCol t c v) x).isNone = (getCol t x).isNone := by
  induction t with
  | nil => rfl
  | cons p ps ih =>
    simp only [setCol, List.map_cons] at ih ⊢
    by_cases hpc : p.1 = c
    · rw [if_pos hpc]
      simp only [getCol]
      by_cases hx : p.1 = x
      · rw [if_pos hx, if_pos hx]
        rfl
      · rw [if_neg hx, if_neg hx]
        exact ih
    · rw [if_neg hpc]
      simp only [getCol]
      by_cases hx : p.1 = x
      · rw [if_pos hx, if_pos hx]
      · rw [if_neg hx, if_neg hx]
        exact ih

theorem ynColOk_setCol (t : RawTable) (c c' : String) (v : List String)
    (h : c' ≠ c) (hok : ynColOk t c') : ynColOk (setCol t c v) c' := by
  obtain ⟨vs, hvs, hall⟩ := hok
  exact ⟨vs, by rw [getCol_setCol_ne c c' v h t, hvs], hall⟩

theorem normalizeCol_ok (t : RawTable) (c : String) (hok : ynColOk t c) :
    ∃ v, normalizeCol t c = .ok (setCol t c v) := by
  obtain ⟨vs, hvs, hall⟩ := hok
  refine ⟨(vs.map fun s => ynMap (stripText s)).map (fun o => o.getD "0"), ?_⟩
  rw [normalizeCol, hvs]
  have hnone : (vs.map fun s => ynMap (stripText s)).any (fun o => o.isNone) = false := by
    rw [List.any_eq_false]
    intro o ho
    rw [List.mem_map] at ho
    obtain ⟨s, hs, rfl⟩ := ho
    rcases hall s hs with h | h <;> simp [ynMap, h]
  simp [hnone]

/-- C9, amended. Provided the three Yes/No columns are present with valid
values (so that the normalization step passes), a table missing at least
one required column makes loading fail fast with the descriptive error
naming, in order, exactly the missing required columns. When a Yes/No
column itself is absent, the failure is instead the normalization
`KeyError` for that column (see the counterexample). -/
theorem load_names_missing_columns (t : RawTable)
    (hm : ynColOk t "HasMortgage") (hd : ynColOk t "HasDependents")
    (hc : ynColOk t "HasCoSigner")
    (hmiss : REQUIRED_COLUMNS.filter (fun c => (getCol t c).isNone) ≠ []) :
    load_dataset t =
      .error (.schemaMismatch (REQUIRED_COLUMNS.filter fun c => (getCol t c).isNone)) := by
  obtain ⟨v1, h1⟩ := normalizeCol_ok t "HasMortgage" hm
  have hd1 : ynColOk (setCol t "HasMortgage" v1) "HasDependents" :=
    ynColOk_setCol t "HasMortgage" "HasDependents" v1 (by decide) hd
  obtain ⟨v2, h2⟩ := normalizeCol_ok _ "HasDependents" hd1
  have hc2 : ynColOk (setCol (setCol t "HasMortgage" v1) "HasDependents" v2) "HasCoSigner" :=
    ynColOk_setCol _ "HasDependents" "HasCoSigner" v2 (by decide)
      (ynColOk_setCol t "HasMortgage" "HasCoSigner" v1 (by decide) hc)
  obtain ⟨v3, h3⟩ := normalizeCol_ok _ "HasCoSigner" hc2
  have hnorm : normalize_binary_yes_no t =
      .ok (setCol (setCol (setCol t "HasMortgage" v1) "HasDependents" v2) "HasCoSigner" v3) := by
    rw [normalize_binary_yes_no, h1]
    show normalizeCol (setCol t "HasMortgage" v1) "HasDependents" >>= _ = _
    rw [h2]
    show normalizeCol _ "HasCoSigner" = _
    exact h3
  have hfilter : (REQUIRED_COLUMNS.filter fun c =>
      (getCol (setCol (setCol (setCol t "HasMortgage" v1) "HasDependents" v2)
        "HasCoSigner" v3) c).isNone) =
      (REQUIRED_COLUMNS.filter fun c => (getCol t c).isNone) := by
    refine List.filter_congr fun c _ => ?_
    rw [getCol_setCol_isNone, getCol_setCol_isNone, getCol_setCol_isNone]
  have hval : validate_schema (setCol (setCol (setCol t "HasMortgage" v1)
      "HasDependents" v2) "HasCoSigner" v3) =
      .error (.schemaMismatch (REQUIRED_COLUMNS.filter fun c => (getCol t c).isNone)) := by
    rw [validate_schema]
    simp only [hfilter]
    rw [if_neg (by simpa [List.isEmpty_iff] using hmiss)]
  rw [load_dataset, hnorm]
  show (validate_schema _ >>= _) = _
  rw [hval]
  rfl

/-- A table carrying all required columns except `Age`, with valid Yes/No
values in the three binary columns. -/
def tMissingAge : RawTable :=
  [("LoanID", ["1"]), ("Income", ["1"]), ("LoanAmount", ["1"]),
   ("CreditScore", ["600"]), ("MonthsEmployed", ["1"]), ("NumCreditLines", ["1"]),
   ("InterestRate", ["10"]), ("LoanTerm", ["12"]), ("DTIRatio", ["0"]),
   ("Education", ["HS"]), ("EmploymentType", ["FT"]), ("MaritalStatus", ["S"]),
   ("HasMortgage", ["No"]), ("HasDependents", ["Yes"]), ("LoanPurpose", ["Auto"]),
   ("HasCoSigner", ["No"]), ("Default", ["0"])]

/-- C9, amended witness: with the Yes/No columns valid and `Age` absent,
loading fails with the schema error naming exactly `["Age"]`. -/
theorem load_names_missing_columns_witness :
    REQUIRED_COLUMNS.filter (fun c => (getCol tMissingAge c).isNone) = ["Age"] ∧
    load_dataset tMissingAge = .error (.schemaMismatch ["Age"]) := by
  have hfil : REQUIRED_COLUMNS.filter (fun c => (getCol tMissingAge c).isNone) = ["Age"] := by
    decide
  refine ⟨hfil, ?_⟩
  have := load_names_missing_columns tMissingAge
    ⟨["No"], by decide, by decide⟩ ⟨["Yes"], by decide, by decide⟩
    ⟨["No"], by decide, by decide⟩ (by rw [hfil]; decide)
  rw [this, hfil]

end LoanInsight
